import Mathlib

/-!
Verification of the srt-slurm resource-allocation and health-check engine.

The development shallowly embeds, in Lean 4:
* the worker-health parsers of `srtctl/core/health.py`
  (`check_sglang_router_health`, `check_dynamo_health`),
* the polling wait loops (`wait_for_port`, `wait_for_model`, the benchmark
  wait and the manual-mode idle loop of `srtctl/cli/do_sweep.py`),
* the frontend-placement computation
  (`SweepOrchestrator._compute_frontend_topology`),
* the endpoint allocator and process materializer
  (`allocate_endpoints`, `endpoints_to_processes` of `srtctl.core.topology`,
  modelled from the specification and pinned by
  `tests/test_endpoint_allocation.py`),
and proves the behavioural claims about them.
-/

-- ===========================================================================
-- Worker health check result (health.py: WorkerHealthResult)
-- ===========================================================================

/-- Result of a worker health check (dataclass `WorkerHealthResult`). -/
structure WorkerHealthResult where
  ready : Bool
  message : String
  prefill_ready : Int := 0
  prefill_expected : Int := 0
  decode_ready : Int := 0
  decode_expected : Int := 0
deriving DecidableEq

-- ===========================================================================
-- sglang router /workers parser (health.py: check_sglang_router_health)
-- ===========================================================================

/-- The `stats` object of the sglang router `/workers` payload.  Each field is
optional, mirroring `stats.get(key, 0)` on the Python dict. -/
structure SglangStats where
  prefill_count : Option Int
  decode_count : Option Int
  regular_count : Option Int
deriving DecidableEq

/-- The sglang `/workers` payload: the `stats` key may be absent. -/
structure SglangResponse where
  stats : Option SglangStats
deriving DecidableEq

/-- The f-string used by both parsers when the model is ready. -/
def ready_message (haveP haveD : Int) : String :=
  "Model is ready. Have " ++ toString haveP ++ " prefills and " ++
    toString haveD ++ " decodes."

/-- The f-string used by both parsers when the model is not ready: the first
two arguments are the shortfalls the message names, the last two the counts
on hand. -/
def not_ready_message (needP needD haveP haveD : Int) : String :=
  "Model is not ready, waiting for " ++ toString needP ++ " prefills and " ++
    toString needD ++ " decodes. Have " ++ toString haveP ++
    " prefills and " ++ toString haveD ++ " decodes."

/-- The `" (N regular workers)"` suffix appended by the sglang parser when
`actual_regular > 0`. -/
def regularSuffix (r : Int) (base : String) : String :=
  if r > 0 then base ++ " (" ++ toString r ++ " regular workers)" else base

/-- `check_sglang_router_health` from `health.py`: missing `stats` is not
ready; `regular_count` is added to the decode count; shortfalls in the
not-ready message are clamped with `max 0`. -/
def check_sglang_router_health (response : SglangResponse)
    (expected_prefill expected_decode : Int) : WorkerHealthResult :=
  match response.stats with
  | none =>
      { ready := false
        message := "Key \x27stats\x27 not found in response" }
  | some stats =>
      let actual_prefill := stats.prefill_count.getD 0
      let actual_decode := stats.decode_count.getD 0
      let actual_regular := stats.regular_count.getD 0
      let effective_decode := actual_decode + actual_regular
      let ready : Bool :=
        decide (actual_prefill ≥ expected_prefill ∧
                effective_decode ≥ expected_decode)
      let base :=
        if ready then
          ready_message actual_prefill effective_decode
        else
          not_ready_message (max 0 (expected_prefill - actual_prefill))
            (max 0 (expected_decode - effective_decode))
            actual_prefill effective_decode
      { ready := ready
        message := regularSuffix actual_regular base
        prefill_ready := actual_prefill
        prefill_expected := expected_prefill
        decode_ready := effective_decode
        decode_expected := expected_decode }

-- ===========================================================================
-- dynamo /health parser (health.py: check_dynamo_health)
-- ===========================================================================

/-- One entry of the dynamo `/health` `instances` list; both dict keys are
optional (`instance.get(...)`). -/
structure DynamoInstance where
  endpoint : Option String
  component : Option String
deriving DecidableEq

/-- The dynamo `/health` payload: the `instances` key may be absent. -/
structure DynamoResponse where
  instances : Option (List DynamoInstance)
deriving DecidableEq

/-- The counting loop of `check_dynamo_health`: only instances with
`endpoint == "generate"` count; `"prefill"` increments the prefill count,
`"decode"` and `"backend"` the decode count. -/
def dynamoCounts : List DynamoInstance → Int × Int
  | [] => (0, 0)
  | inst :: rest =>
      let acc := dynamoCounts rest
      if inst.endpoint == some "generate" then
        if inst.component == some "prefill" then (acc.1 + 1, acc.2)
        else if inst.component == some "decode" then (acc.1, acc.2 + 1)
        else if inst.component == some "backend" then (acc.1, acc.2 + 1)
        else acc
      else acc

/-- `check_dynamo_health` from `health.py`.  Note that, unlike the sglang
parser, the not-ready message uses the raw differences
`expected - actual`, without clamping at zero. -/
def check_dynamo_health (response : DynamoResponse)
    (expected_prefill expected_decode : Int) : WorkerHealthResult :=
  match response.instances with
  | none =>
      { ready := false
        message := "Key \x27instances\x27 not found in response" }
  | some instances =>
      let counts := dynamoCounts instances
      let prefill_count := counts.1
      let decode_count := counts.2
      let ready : Bool :=
        decide (prefill_count ≥ expected_prefill ∧
                decode_count ≥ expected_decode)
      let message :=
        if ready then
          ready_message prefill_count decode_count
        else
          not_ready_message (expected_prefill - prefill_count)
            (expected_decode - decode_count) prefill_count decode_count
      { ready := ready
        message := message
        prefill_ready := prefill_count
        prefill_expected := expected_prefill
        decode_ready := decode_count
        decode_expected := expected_decode }

-- ===========================================================================
-- Basic lemmas about the parsers
-- ===========================================================================

/-- `dynamoCounts` computed as two `countP`s. -/
theorem dynamoCounts_eq_countP (l : List DynamoInstance) :
    dynamoCounts l =
      (((l.countP fun i =>
          i.endpoint == some "generate" && i.component == some "prefill") : Int),
       ((l.countP fun i =>
          i.endpoint == some "generate" &&
            (i.component == some "decode" || i.component == some "backend")) : Int)) := by
  induction l with
  | nil => simp [dynamoCounts]
  | cons inst rest ih =>
      simp only [dynamoCounts, ih, List.countP_cons]
      by_cases hg : inst.endpoint == some "generate" <;>
        by_cases hp : inst.component == some "prefill" <;>
          by_cases hd : inst.component == some "decode" <;>
            by_cases hb : inst.component == some "backend" <;>
              simp_all [beq_iff_eq]

/-- On the `stats` payload, `ready` decides precisely whether each actual
count meets its expected count (with `regular_count` folded into decode). -/
theorem check_sglang_ready_iff (s : SglangStats) (ep ed : Int) :
    (check_sglang_router_health ⟨some s⟩ ep ed).ready = true ↔
      (s.prefill_count.getD 0 ≥ ep ∧
       s.decode_count.getD 0 + s.regular_count.getD 0 ≥ ed) := by
  simp [check_sglang_router_health]

/-- On the `instances` payload, `ready` decides precisely whether both
counted totals meet their expected counts. -/
theorem check_dynamo_ready_iff (l : List DynamoInstance) (ep ed : Int) :
    (check_dynamo_health ⟨some l⟩ ep ed).ready = true ↔
      ((dynamoCounts l).1 ≥ ep ∧ (dynamoCounts l).2 ≥ ed) := by
  simp [check_dynamo_health]

-- ===========================================================================
-- Claims C5, C6, C7, C10: the health parsers
-- ===========================================================================

/-- Claim C5: `check_sglang_router_health` applied to the payload
`stats = {prefill_count: 4, decode_count: 8, regular_count: 0}` with expected
counts (4, 8) returns ready = true, and with expected counts (4, 9) returns
ready = false with a message naming exactly 1 missing decode (and 0 missing
prefills). -/
theorem C5_sglang_concrete_payload :
    (check_sglang_router_health ⟨some ⟨some 4, some 8, some 0⟩⟩ 4 8).ready = true
    ∧ (check_sglang_router_health ⟨some ⟨some 4, some 8, some 0⟩⟩ 4 9).ready = false
    ∧ (check_sglang_router_health ⟨some ⟨some 4, some 8, some 0⟩⟩ 4 9).message =
        "Model is not ready, waiting for 0 prefills and 1 decodes. " ++
          "Have 4 prefills and 8 decodes." := by
  refine ⟨rfl, rfl, ?_⟩
  rfl

/-- Claim C6: `check_dynamo_health` counts only instances whose `endpoint`
field is `"generate"`; among those, component `"prefill"` counts toward
prefill and components `"decode"` and `"backend"` count toward decode; and
a payload of two `"backend"`-labelled generate instances checked against
expected counts (0, 2) is ready. -/
theorem C6_dynamo_counting :
    (∀ (l : List DynamoInstance) (ep ed : Int),
      (check_dynamo_health ⟨some l⟩ ep ed).prefill_ready =
        ((l.countP fun i =>
          i.endpoint == some "generate" && i.component == some "prefill" : Nat) : Int)
      ∧ (check_dynamo_health ⟨some l⟩ ep ed).decode_ready =
        ((l.countP fun i =>
          i.endpoint == some "generate" &&
            (i.component == some "decode" || i.component == some "backend") : Nat) : Int))
    ∧ (check_dynamo_health
        ⟨some [⟨some "generate", some "backend"⟩, ⟨some "generate", some "backend"⟩]⟩
        0 2).ready = true := by
  refine ⟨fun l ep ed => ?_, by rfl⟩
  have h := dynamoCounts_eq_countP l
  constructor
  · show (dynamoCounts l).1 = _
    rw [h]
  · show (dynamoCounts l).2 = _
    rw [h]

/-- Claim C7 (amended): both parsers return ready = true whenever each actual
count meets or exceeds its expected count.  When not ready,
`check_sglang_router_health`'s message names the clamped non-negative
shortfalls `max 0 (expected - actual)`; `check_dynamo_health`'s message names
the raw differences `expected - actual`, which can be negative when an actual
count exceeds its expected count. -/
theorem C7_ready_monotone_and_shortfall_messages
    (s : SglangStats) (l : List DynamoInstance) (ep ed : Int) :
    ((s.prefill_count.getD 0 ≥ ep ∧
        s.decode_count.getD 0 + s.regular_count.getD 0 ≥ ed) →
      (check_sglang_router_health ⟨some s⟩ ep ed).ready = true)
    ∧ ((check_sglang_router_health ⟨some s⟩ ep ed).ready = false →
      (check_sglang_router_health ⟨some s⟩ ep ed).message =
        regularSuffix (s.regular_count.getD 0)
          (not_ready_message
            (max 0 (ep - s.prefill_count.getD 0))
            (max 0 (ed - (s.decode_count.getD 0 + s.regular_count.getD 0)))
            (s.prefill_count.getD 0)
            (s.decode_count.getD 0 + s.regular_count.getD 0)))
    ∧ (((dynamoCounts l).1 ≥ ep ∧ (dynamoCounts l).2 ≥ ed) →
      (check_dynamo_health ⟨some l⟩ ep ed).ready = true)
    ∧ ((check_dynamo_health ⟨some l⟩ ep ed).ready = false →
      (check_dynamo_health ⟨some l⟩ ep ed).message =
        not_ready_message (ep - (dynamoCounts l).1) (ed - (dynamoCounts l).2)
          (dynamoCounts l).1 (dynamoCounts l).2) := by
  refine ⟨fun h => ?_, fun h => ?_, fun h => ?_, fun h => ?_⟩
  · simpa [check_sglang_ready_iff] using h
  · simp only [check_sglang_router_health] at h ⊢
    rcases Decidable.em
        (s.prefill_count.getD 0 ≥ ep ∧
          s.decode_count.getD 0 + s.regular_count.getD 0 ≥ ed) with hr | hr
    · simp [hr] at h
    · simp [hr]
  · simpa [check_dynamo_ready_iff] using h
  · simp only [check_dynamo_health] at h ⊢
    rcases Decidable.em
        ((dynamoCounts l).1 ≥ ep ∧ (dynamoCounts l).2 ≥ ed) with hr | hr
    · simp [hr] at h
    · simp [hr]

/-- Witness for C7 at a concrete input: 3 prefills and 9 effective decodes
meet expected counts (3, 8). -/
theorem C7_witness :
    (check_sglang_router_health ⟨some ⟨some 3, some 9, some 0⟩⟩ 3 8).ready = true :=
  (C7_ready_monotone_and_shortfall_messages ⟨some 3, some 9, some 0⟩ [] 3 8).1
    (by constructor <;> decide)

/-- Counterexample for C7 as stated: with two registered generate/prefill
instances and expected counts (1, 1), `check_dynamo_health` is not ready
(no decode), and its message names "-1 prefills" — a negative count — rather
than the claimed clamped shortfall `max 0 (1 - 2) = 0`. -/
theorem C7_counterexample :
    (check_dynamo_health
        ⟨some [⟨some "generate", some "prefill"⟩, ⟨some "generate", some "prefill"⟩]⟩
        1 1).ready = false
    ∧ (check_dynamo_health
        ⟨some [⟨some "generate", some "prefill"⟩, ⟨some "generate", some "prefill"⟩]⟩
        1 1).message =
        "Model is not ready, waiting for -1 prefills and 1 decodes. " ++
          "Have 2 prefills and 0 decodes."
    ∧ (check_dynamo_health
        ⟨some [⟨some "generate", some "prefill"⟩, ⟨some "generate", some "prefill"⟩]⟩
        1 1).message ≠
        not_ready_message (max 0 (1 - 2)) (max 0 (1 - 0)) 2 0 := by
  refine ⟨rfl, by rfl, by decide⟩

/-- Claim C10: the sglang parser adds `regular_count` to the actual decode
count unconditionally — for every payload and every expected pair, including
`expected_prefill > 0` — so regular workers can satisfy the expected decode
count outside aggregated mode; and `check_dynamo_health` counts `"backend"`
components toward decode regardless of the expected counts. -/
theorem C10_regular_and_backend_count_toward_decode :
    (∀ (s : SglangStats) (ep ed : Int),
      (check_sglang_router_health ⟨some s⟩ ep ed).decode_ready =
        s.decode_count.getD 0 + s.regular_count.getD 0)
    ∧ (check_sglang_router_health ⟨some ⟨some 5, some 0, some 3⟩⟩ 5 3).ready = true
    ∧ (∀ (l : List DynamoInstance) (ep ed : Int),
      (check_dynamo_health ⟨some l⟩ ep ed).decode_ready =
        ((l.countP fun i =>
          i.endpoint == some "generate" &&
            (i.component == some "decode" || i.component == some "backend") : Nat) : Int)) := by
  refine ⟨fun s ep ed => rfl, by rfl, fun l ep ed => ?_⟩
  show (dynamoCounts l).2 = _
  rw [dynamoCounts_eq_countP]

-- ===========================================================================
-- Claim C8: the blocking wait loops
-- ===========================================================================

/-- `wait_for_port` from `health.py`: each iteration tries one TCP connection
(`conn t`) and sleeps on failure until the timeout (`fuel` iterations)
elapses.  The Python function takes no stop event, so the loop does not
observe cancellation; the returned second component is the number of
completed sleep iterations. -/
def waitForPort (conn : Nat → Bool) : Nat → Nat → Bool × Nat
  | 0, t => (false, t)
  | fuel + 1, t => if conn t then (true, t) else waitForPort conn fuel (t + 1)

/-- The polling loop of `wait_for_model` from `health.py`: each iteration
first re-checks the stop event, then the timeout (`fuel` exhaustion), then
polls readiness (`ready t`). -/
def waitForModel (ready stop : Nat → Bool) : Nat → Nat → Bool × Nat
  | 0, t => (false, t)
  | fuel + 1, t =>
      if stop t then (false, t)
      else if ready t then (true, t)
      else waitForModel ready stop fuel (t + 1)

/-- The benchmark wait of `SweepOrchestrator._run_benchmark_script`: while
the process has not exited (`exited t = none`), re-check the stop event
(terminating the benchmark and returning 1 when set) and sleep; on exit
propagate the exit code. -/
def benchmarkWait (exited : Nat → Option Int) (stop : Nat → Bool) :
    Nat → Nat → Int × Nat
  | 0, t => (0, t)
  | fuel + 1, t =>
      match exited t with
      | some code => (code, t)
      | none => if stop t then (1, t) else benchmarkWait exited stop fuel (t + 1)

/-- The manual-mode idle loop of `SweepOrchestrator.run_benchmark`: while the
stop event is not set, check the registry for failures (returning 1 on one)
and sleep; return 0 once the stop event is observed. -/
def manualModeLoop (failures stop : Nat → Bool) : Nat → Nat → Int × Nat
  | 0, t => (0, t)
  | fuel + 1, t =>
      if stop t then (0, t)
      else if failures t then (1, t)
      else manualModeLoop failures stop fuel (t + 1)

/-- With no stop event to observe, `wait_for_port` on a never-opening port
runs through its entire timeout budget. -/
theorem waitForPort_runs_to_timeout (conn : Nat → Bool)
    (h : ∀ t, conn t = false) :
    ∀ fuel t, waitForPort conn fuel t = (false, t + fuel) := by
  intro fuel
  induction fuel with
  | zero => intro t; simp [waitForPort]
  | succ n ih =>
      intro t
      simp only [waitForPort, h t, if_false, Bool.false_eq_true, ih (t + 1)]
      congr 1
      omega

/-- Claim C8 (amended): the readiness poll, the benchmark wait and the
manual-mode idle loop re-check the shared cancellation flag on every
iteration, so once the flag is set they unblock without completing a further
poll interval; `wait_for_port`, by contrast, takes no cancellation flag and
polls until success or timeout regardless of cancellation. -/
theorem C8_cancellation_rechecked_except_port
    (ready failures conn stop : Nat → Bool) (exited : Nat → Option Int)
    (fuel : Nat) (hf : 0 < fuel) (hs : stop 0 = true)
    (hc : ∀ t, conn t = false) :
    (waitForModel ready stop fuel 0).2 = 0
    ∧ (benchmarkWait exited stop fuel 0).2 = 0
    ∧ (manualModeLoop failures stop fuel 0).2 = 0
    ∧ waitForPort conn fuel 0 = (false, fuel) := by
  obtain ⟨m, rfl⟩ : ∃ m, fuel = m + 1 := ⟨fuel - 1, by omega⟩
  refine ⟨by simp [waitForModel, hs], ?_, by simp [manualModeLoop, hs], ?_⟩
  · cases h : exited 0 <;> simp [benchmarkWait, h, hs]
  · simpa using waitForPort_runs_to_timeout conn hc (m + 1) 0

/-- Witness for C8 at concrete loops: the flag is set from the start, the
three flag-observing waits return after 0 poll iterations, and the port wait
still consumes its full 3-iteration budget. -/
theorem C8_witness :
    (waitForModel (fun _ => false) (fun _ => true) 3 0).2 = 0
    ∧ (benchmarkWait (fun _ => none) (fun _ => true) 3 0).2 = 0
    ∧ (manualModeLoop (fun _ => false) (fun _ => true) 3 0).2 = 0
    ∧ waitForPort (fun _ => false) 3 0 = (false, 3) :=
  C8_cancellation_rechecked_except_port (fun _ => false) (fun _ => false)
    (fun _ => false) (fun _ => true) (fun _ => none) 3 (by decide) rfl
    (fun _ => rfl)

/-- Counterexample for C8 as stated: `wait_for_port` is one of the four
blocking waits, yet with the cancellation flag permanently set (which it
cannot observe — the function takes no stop event) and a port that never
opens, it still runs 5 poll iterations out of a 5-iteration budget instead
of unblocking within one interval. -/
theorem C8_counterexample :
    (waitForPort (fun _ => false) 5 0).2 = 5
    ∧ ¬ (waitForPort (fun _ => false) 5 0).2 ≤ 1 := by
  constructor <;> decide

-- ===========================================================================
-- Claim C9: frontend placement (do_sweep.py: _compute_frontend_topology)
-- ===========================================================================

/-- `FrontendTopology` dataclass from `do_sweep.py`. -/
structure FrontendTopology where
  nginx_node : Option String
  frontend_nodes : List String
  frontend_port : Nat
  public_port : Nat
deriving DecidableEq

/-- `SweepOrchestrator._compute_frontend_topology` from `do_sweep.py`:
single worker node or multiple frontends disabled gives one frontend on the
head node and no nginx; otherwise nginx runs on the head node and frontends
on the first `min (num_additional_frontends + 1) |non-head nodes|` non-head
nodes. -/
def compute_frontend_topology (nodes : List String) (head : String)
    (enable_multiple_frontends : Bool) (num_additional_frontends : Nat) :
    FrontendTopology :=
  if nodes.length == 1 || !enable_multiple_frontends then
    { nginx_node := none
      frontend_nodes := [head]
      frontend_port := 8000
      public_port := 8000 }
  else
    let other_nodes := nodes.filter (fun n => n != head)
    let max_frontends := min (num_additional_frontends + 1) other_nodes.length
    { nginx_node := some head
      frontend_nodes := other_nodes.take max_frontends
      frontend_port := 8080
      public_port := 8000 }

/-- Claim C9: with one worker node or the multiple-frontends flag disabled,
the topology is a single frontend on the head node and no load balancer;
with two or more nodes and the flag enabled, nginx runs on the head node and
the frontends sit only on non-head nodes, their number being exactly the
minimum of (configured additional frontends + 1) and the number of non-head
nodes. -/
theorem C9_frontend_topology (nodes : List String) (head : String)
    (mf : Bool) (k : Nat) :
    ((nodes.length = 1 ∨ mf = false) →
      compute_frontend_topology nodes head mf k =
        { nginx_node := none
          frontend_nodes := [head]
          frontend_port := 8000
          public_port := 8000 })
    ∧ (2 ≤ nodes.length → mf = true →
      (compute_frontend_topology nodes head mf k).nginx_node = some head
      ∧ (compute_frontend_topology nodes head mf k).frontend_nodes =
          (nodes.filter (fun n => n != head)).take
            (min (k + 1) ((nodes.filter (fun n => n != head)).length))
      ∧ (∀ n ∈ (compute_frontend_topology nodes head mf k).frontend_nodes,
          n ≠ head)
      ∧ (compute_frontend_topology nodes head mf k).frontend_nodes.length =
          min (k + 1) ((nodes.filter (fun n => n != head)).length)) := by
  constructor
  · rintro (h | h) <;>
      simp [compute_frontend_topology, h]
  · intro hlen hmf
    have hcond : (nodes.length == 1 || !mf) = false := by
      simp [hmf]
      omega
    refine ⟨by simp [compute_frontend_topology, hcond], ?_, ?_, ?_⟩
    · simp [compute_frontend_topology, hcond]
    · intro n hn
      simp only [compute_frontend_topology, hcond, Bool.false_eq_true,
        if_false] at hn
      have hmem := List.take_subset _ _ hn
      have := List.of_mem_filter hmem
      simpa [bne_iff_ne] using this
    · simp [compute_frontend_topology, hcond, List.length_take]

/-- Witness for C9 at concrete inputs: one node gives the head-only topology;
three nodes with the flag enabled put nginx on the head. -/
theorem C9_witness :
    compute_frontend_topology ["h"] "h" true 0 =
      { nginx_node := none
        frontend_nodes := ["h"]
        frontend_port := 8000
        public_port := 8000 }
    ∧ (compute_frontend_topology ["h", "a", "b"] "h" true 5).nginx_node =
        some "h" :=
  ⟨(C9_frontend_topology ["h"] "h" true 0).1 (Or.inl rfl),
   ((C9_frontend_topology ["h", "a", "b"] "h" true 5).2 (by decide) rfl).1⟩

-- ===========================================================================
-- Claims C1, C2: the endpoint allocator (srtctl.core.topology, absent from
-- the sources; modelled from the spec and pinned by
-- tests/test_endpoint_allocation.py)
-- ===========================================================================

/-- Modelled from the spec: the `Endpoint` dataclass of the missing module
`srtctl.core.topology` — logical serving unit: role, per-role index, ordered
node span, uniform per-node GPU-index set (kept ascending), total GPU
count. -/
structure Endpoint where
  mode : String
  index : Nat
  nodes : List String
  gpu_indices : List Nat
  total_gpus : Nat
deriving DecidableEq

/-- Modelled from the spec: one allocation step of the missing
`allocate_endpoints` of `srtctl.core.topology`.  The cursor is
(node index, GPU offset in that node).  If the endpoint's GPU need fits in
the current node's remaining capacity it claims those indices and advances
the offset; otherwise it starts at the next full node boundary and spans
`ceil(need / cap)` consecutive nodes (per `tests/test_endpoint_allocation.py`
the boundary rule applies to the fresh allocation itself, not to role
switches: an endpoint of the next role that fits in the partially consumed
node is placed there). -/
def allocOne (cap : Nat) (nodes : List String) (mode : String) (idx : Nat)
    (need : Nat) (cur : Nat × Nat) : Option (Endpoint × (Nat × Nat)) :=
  if cur.2 + need ≤ cap then
    if cur.1 < nodes.length then
      some ({ mode := mode, index := idx
              nodes := (List.range' cur.1 1).map (fun j => nodes.getD j "")
              gpu_indices := List.range' cur.2 need
              total_gpus := need }, (cur.1, cur.2 + need))
    else none
  else
    let start := if cur.2 = 0 then cur.1 else cur.1 + 1
    let span := (need + cap - 1) / cap
    if start + span ≤ nodes.length then
      if span ≤ 1 then
        some ({ mode := mode, index := idx
                nodes := (List.range' start 1).map (fun j => nodes.getD j "")
                gpu_indices := List.range' 0 need
                total_gpus := need }, (start, need))
      else
        some ({ mode := mode, index := idx
                nodes := (List.range' start span).map (fun j => nodes.getD j "")
                gpu_indices := List.range' 0 cap
                total_gpus := need }, (start + span, 0))
    else none

/-- Modelled from the spec: allocate `count` endpoints of one role,
threading the cursor; fails (None) as soon as the node pool runs out. -/
def allocRole (cap : Nat) (nodes : List String) (mode : String) (need : Nat) :
    Nat → Nat → (Nat × Nat) → Option (List Endpoint × (Nat × Nat))
  | 0, _, cur => some ([], cur)
  | count + 1, idx, cur =>
      match allocOne cap nodes mode idx need cur with
      | none => none
      | some (ep, cur') =>
          match allocRole cap nodes mode need count (idx + 1) cur' with
          | none => none
          | some (eps, final) => some (ep :: eps, final)

/-- Modelled from the spec: `allocate_endpoints` of the missing
`srtctl.core.topology` — roles processed in fixed priority order
(prefill, decode, aggregated) over one shared cursor; `none` models the
resource error raised when nodes run out before demand is satisfied. -/
def allocate_endpoints (num_prefill num_decode num_agg : Nat)
    (gpus_per_prefill gpus_per_decode gpus_per_agg : Nat)
    (gpus_per_node : Nat) (available_nodes : List String) :
    Option (List Endpoint) :=
  match allocRole gpus_per_node available_nodes "prefill" gpus_per_prefill
      num_prefill 0 (0, 0) with
  | none => none
  | some (prefill_eps, c1) =>
      match allocRole gpus_per_node available_nodes "decode" gpus_per_decode
          num_decode 0 c1 with
      | none => none
      | some (decode_eps, c2) =>
          match allocRole gpus_per_node available_nodes "agg" gpus_per_agg
              num_agg 0 c2 with
          | none => none
          | some (agg_eps, _) => some (prefill_eps ++ decode_eps ++ agg_eps)

example :
    allocate_endpoints 2 2 0 2 2 8 4 ["node0", "node1"] =
      some [⟨"prefill", 0, ["node0"], [0, 1], 2⟩,
            ⟨"prefill", 1, ["node0"], [2, 3], 2⟩,
            ⟨"decode", 0, ["node1"], [0, 1], 2⟩,
            ⟨"decode", 1, ["node1"], [2, 3], 2⟩] := by decide

example :
    allocate_endpoints 3 1 0 2 32 0 4
      ["node0", "node1", "node2", "node3", "node4", "node5", "node6",
       "node7", "node8", "node9", "node10"] =
      some [⟨"prefill", 0, ["node0"], [0, 1], 2⟩,
            ⟨"prefill", 1, ["node0"], [2, 3], 2⟩,
            ⟨"prefill", 2, ["node1"], [0, 1], 2⟩,
            ⟨"decode", 0,
              ["node2", "node3", "node4", "node5", "node6", "node7",
               "node8", "node9"], [0, 1, 2, 3], 32⟩] := by decide

example :
    allocate_endpoints 1 1 0 2 4 0 4 ["node0", "node1"] =
      some [⟨"prefill", 0, ["node0"], [0, 1], 2⟩,
            ⟨"decode", 0, ["node1"], [0, 1, 2, 3], 4⟩] := by decide

example :
    allocate_endpoints 2 2 0 8 8 8 4 ["node0", "node1"] = none := by decide

example :
    allocate_endpoints 1 1 0 8 8 8 4 ["node0", "node1", "node2", "node3"] =
      some [⟨"prefill", 0, ["node0", "node1"], [0, 1, 2, 3], 8⟩,
            ⟨"decode", 0, ["node2", "node3"], [0, 1, 2, 3], 8⟩] := by decide

example :
    allocate_endpoints 1 1 0 2 2 8 4 ["node0"] =
      some [⟨"prefill", 0, ["node0"], [0, 1], 2⟩,
            ⟨"decode", 0, ["node0"], [2, 3], 2⟩] := by decide

-- ===========================================================================
-- Allocation invariants
-- ===========================================================================

/-- Linearisation of the allocation cursor: GPUs consumed (or skipped) so
far, counting `cap` per fully passed node. -/
def cursorPos (cap : Nat) (c : Nat × Nat) : Nat := c.1 * cap + c.2

/-- Well-formedness of the allocation cursor: the offset never exceeds the
per-node capacity, and a nonzero offset points into an existing node. -/
def CursorInv (cap : Nat) (nodes : List String) (c : Nat × Nat) : Prop :=
  c.2 ≤ cap ∧ c.1 ≤ nodes.length ∧ (0 < c.2 → c.1 < nodes.length)

/-- Description of one allocated endpoint: it occupies the node-index window
`[s, s + k)`, its claimed (node, GPU) pairs linearise into `[lo, hi)`, and a
multi-node endpoint claims its whole node window inside `[lo, hi)`. -/
def EpDesc (cap : Nat) (nodes : List String) (ep : Endpoint)
    (lo hi : Nat) : Prop :=
  ∃ s k,
    ep.nodes = (List.range' s k).map (fun j => nodes.getD j "") ∧
    0 < k ∧ s + k ≤ nodes.length ∧
    ep.gpu_indices ≠ [] ∧
    (∀ g ∈ ep.gpu_indices, g < cap) ∧
    (∀ j g, s ≤ j → j < s + k → g ∈ ep.gpu_indices →
      lo ≤ j * cap + g ∧ j * cap + g < hi) ∧
    (2 ≤ k → ∀ j g, s ≤ j → j < s + k → g < cap →
      lo ≤ j * cap + g ∧ j * cap + g < hi)

/-- A list of endpoints carrying consecutive claim windows between `lo` and
`hi`. -/
def DescChain (cap : Nat) (nodes : List String) :
    List Endpoint → Nat → Nat → Prop
  | [], lo, hi => lo ≤ hi
  | ep :: rest, lo, hi => ∃ mid, EpDesc cap nodes ep lo mid ∧
      DescChain cap nodes rest mid hi

/-- Ceiling division times the divisor covers the dividend. -/
theorem ceil_mul_ge (need cap : Nat) (hcap : 0 < cap) :
    need ≤ ((need + cap - 1) / cap) * cap := by
  have h1 := Nat.div_add_mod (need + cap - 1) cap
  have h2 := Nat.mod_lt (need + cap - 1) hcap
  rw [Nat.mul_comm]
  omega

/-- Claim positions of a whole-node window sit inside the window's
linearised interval. -/
theorem pos_in_window {s q j g cap : Nat} (h1 : s ≤ j) (h2 : j < s + q)
    (h3 : g < cap) :
    s * cap ≤ j * cap + g ∧ j * cap + g < (s + q) * cap := by
  constructor
  · calc s * cap ≤ j * cap := Nat.mul_le_mul_right cap h1
      _ ≤ j * cap + g := Nat.le_add_right _ _
  · calc j * cap + g < j * cap + cap := by omega
      _ = (j + 1) * cap := by ring
      _ ≤ (s + q) * cap := Nat.mul_le_mul_right cap (by omega)

/-- One allocation step preserves the cursor invariant, consumes at least
`need` linearised GPUs, and yields an endpoint whose claims fill a window
between the old and the new cursor position. -/
theorem allocOne_spec {cap : Nat} {nodes : List String} {mode : String}
    {idx need : Nat} {c c' : Nat × Nat} {ep : Endpoint}
    (hcap : 0 < cap) (hneed : 0 < need) (hinv : CursorInv cap nodes c)
    (h : allocOne cap nodes mode idx need c = some (ep, c')) :
    CursorInv cap nodes c' ∧
    cursorPos cap c + need ≤ cursorPos cap c' ∧
    EpDesc cap nodes ep (cursorPos cap c) (cursorPos cap c') := by
  obtain ⟨hoff, hlen, hptr⟩ := hinv
  simp only [allocOne] at h
  split at h
  case isTrue hfit =>
    split at h
    case isTrue hni =>
      simp only [Option.some.injEq, Prod.mk.injEq] at h
      obtain ⟨rfl, rfl⟩ := h
      refine ⟨⟨by omega, hlen, fun _ => hni⟩, ?_, ?_⟩
      · simp only [cursorPos]
        omega
      · refine ⟨c.1, 1, rfl, Nat.one_pos, by omega, ?_, ?_, ?_, ?_⟩
        · simp [List.range'_eq_nil]
          omega
        · intro g hg
          rw [List.mem_range'_1] at hg
          omega
        · intro j g hj1 hj2 hg
          rw [List.mem_range'_1] at hg
          have hj : j = c.1 := by omega
          subst hj
          simp only [cursorPos]
          omega
        · intro hk
          omega
    case isFalse hni => exact absurd h (by simp)
  case isFalse hfit =>
    obtain ⟨s, hsel, hlo⟩ :
        ∃ s, (if c.2 = 0 then c.1 else c.1 + 1) = s ∧
          c.1 * cap + c.2 ≤ s * cap := by
      rcases Nat.eq_zero_or_pos c.2 with h0 | h0
      · exact ⟨c.1, by simp [h0], by omega⟩
      · refine ⟨c.1 + 1, by simp [Nat.pos_iff_ne_zero.mp h0], ?_⟩
        have hm : (c.1 + 1) * cap = c.1 * cap + cap := by ring
        omega
    rw [hsel] at h
    set q := (need + cap - 1) / cap with hq
    have hq1 : 1 ≤ q := by
      rw [hq, Nat.le_div_iff_mul_le hcap]
      omega
    have hqm : need ≤ q * cap := ceil_mul_ge need cap hcap
    split at h
    case isFalse => exact absurd h (by simp)
    case isTrue hroom =>
      split at h
      case isTrue hspan1 =>
        have hqe : q = 1 := by omega
        rw [hqe, Nat.one_mul] at hqm
        simp only [Option.some.injEq, Prod.mk.injEq] at h
        obtain ⟨rfl, rfl⟩ := h
        refine ⟨⟨hqm, by omega, fun _ => by omega⟩, ?_, ?_⟩
        · simp only [cursorPos]
          omega
        · refine ⟨s, 1, rfl, Nat.one_pos, by omega, ?_, ?_, ?_, ?_⟩
          · simp [List.range'_eq_nil]
            omega
          · intro g hg
            rw [List.mem_range'_1] at hg
            omega
          · intro j g hj1 hj2 hg
            rw [List.mem_range'_1] at hg
            have hj : j = s := by omega
            subst hj
            simp only [cursorPos]
            omega
          · intro hk
            omega
      case isFalse hspan1 =>
        have hq2 : 2 ≤ q := by omega
        have hsum : (s + q) * cap = s * cap + q * cap := Nat.add_mul s q cap
        simp only [Option.some.injEq, Prod.mk.injEq] at h
        obtain ⟨rfl, rfl⟩ := h
        refine ⟨⟨by omega, by omega, fun hh => by omega⟩, ?_, ?_⟩
        · simp only [cursorPos]
          omega
        · refine ⟨s, q, rfl, by omega, hroom, ?_, ?_, ?_, ?_⟩
          · simp [List.range'_eq_nil]
            omega
          · intro g hg
            rw [List.mem_range'_1] at hg
            omega
          · intro j g hj1 hj2 hg
            rw [List.mem_range'_1] at hg
            have hw := pos_in_window hj1 hj2 (show g < cap by omega)
            simp only [cursorPos]
            omega
          · intro hk j g hj1 hj2 hg
            have hw := pos_in_window hj1 hj2 hg
            simp only [cursorPos]
            omega

/-- A role segment preserves the cursor invariant, consumes at least
`count * need` linearised GPUs, and chains its endpoints' claim windows. -/
theorem allocRole_spec {cap : Nat} {nodes : List String} {mode : String}
    {need : Nat} (hcap : 0 < cap) :
    ∀ (count idx : Nat) (c : Nat × Nat) (eps : List Endpoint)
      (c' : Nat × Nat),
      (count ≠ 0 → 0 < need) → CursorInv cap nodes c →
      allocRole cap nodes mode need count idx c = some (eps, c') →
      CursorInv cap nodes c' ∧
      cursorPos cap c + count * need ≤ cursorPos cap c' ∧
      DescChain cap nodes eps (cursorPos cap c) (cursorPos cap c') := by
  intro count
  induction count with
  | zero =>
      intro idx c eps c' _ hinv h
      simp only [allocRole, Option.some.injEq, Prod.mk.injEq] at h
      obtain ⟨rfl, rfl⟩ := h
      exact ⟨hinv, by omega, le_refl _⟩
  | succ n ih =>
      intro idx c eps c' hneed hinv h
      have hpos : 0 < need := hneed (by omega)
      simp only [allocRole] at h
      cases h1 : allocOne cap nodes mode idx need c with
      | none => rw [h1] at h; exact absurd h (by simp)
      | some pc =>
          obtain ⟨ep, c1⟩ := pc
          rw [h1] at h
          simp only at h
          cases h2 : allocRole cap nodes mode need n (idx + 1) c1 with
          | none => rw [h2] at h; exact absurd h (by simp)
          | some pr =>
              obtain ⟨eps', cf⟩ := pr
              rw [h2] at h
              simp only [Option.some.injEq, Prod.mk.injEq] at h
              obtain ⟨rfl, rfl⟩ := h
              obtain ⟨hinv1, hpos1, hdesc⟩ := allocOne_spec hcap hpos hinv h1
              obtain ⟨hinv2, hpos2, hchain⟩ :=
                ih (idx + 1) c1 eps' cf (fun _ => hpos) hinv1 h2
              refine ⟨hinv2, ?_, ?_⟩
              · have hm : (n + 1) * need = n * need + need := by ring
                omega
              · exact ⟨cursorPos cap c1, hdesc, hchain⟩

/-- The lower end of a chain may move down and the upper end up. -/
theorem EpDesc_mono {cap : Nat} {nodes : List String} {ep : Endpoint}
    {lo hi lo' hi' : Nat} (h1 : lo' ≤ lo) (h2 : hi ≤ hi')
    (h : EpDesc cap nodes ep lo hi) : EpDesc cap nodes ep lo' hi' := by
  obtain ⟨s, k, hn, hk, hsk, hne, hgcap, hclaim, hfull⟩ := h
  refine ⟨s, k, hn, hk, hsk, hne, hgcap, ?_, ?_⟩
  · intro j g hj1 hj2 hg
    have := hclaim j g hj1 hj2 hg
    omega
  · intro h2k j g hj1 hj2 hg
    have := hfull h2k j g hj1 hj2 hg
    omega

/-- An endpoint's claim window is nonempty. -/
theorem EpDesc_lt {cap : Nat} {nodes : List String} {ep : Endpoint}
    {lo hi : Nat} (h : EpDesc cap nodes ep lo hi) : lo < hi := by
  obtain ⟨s, k, hn, hk, hsk, hne, hgcap, hclaim, hfull⟩ := h
  obtain ⟨g, hg⟩ := List.exists_mem_of_ne_nil _ hne
  have := hclaim s g (le_refl s) (by omega) hg
  omega

/-- Chains weaken on the left. -/
theorem DescChain_mono_lo {cap : Nat} {nodes : List String}
    {eps : List Endpoint} {lo hi lo' : Nat} (h1 : lo' ≤ lo)
    (h : DescChain cap nodes eps lo hi) : DescChain cap nodes eps lo' hi := by
  cases eps with
  | nil => exact le_trans h1 h
  | cons ep rest =>
      obtain ⟨mid, hd, hc⟩ := h
      exact ⟨mid, EpDesc_mono h1 (le_refl _) hd, hc⟩

/-- Chains weaken on the right. -/
theorem DescChain_mono_hi {cap : Nat} {nodes : List String}
    {eps : List Endpoint} {lo hi hi' : Nat} (h2 : hi ≤ hi')
    (h : DescChain cap nodes eps lo hi) : DescChain cap nodes eps lo hi' := by
  induction eps generalizing lo with
  | nil => exact le_trans h h2
  | cons ep rest ih =>
      obtain ⟨mid, hd, hc⟩ := h
      exact ⟨mid, hd, ih hc⟩

/-- Consecutive chains concatenate. -/
theorem DescChain_append {cap : Nat} {nodes : List String}
    {l1 l2 : List Endpoint} {lo mid hi : Nat}
    (h1 : DescChain cap nodes l1 lo mid)
    (h2 : DescChain cap nodes l2 mid hi) :
    DescChain cap nodes (l1 ++ l2) lo hi := by
  induction l1 generalizing lo with
  | nil => exact DescChain_mono_lo h1 h2
  | cons ep rest ih =>
      obtain ⟨m, hd, hc⟩ := h1
      exact ⟨m, hd, ih hc⟩

/-- Every member of a chain carries a window starting no earlier than the
chain's start. -/
theorem DescChain_mem {cap : Nat} {nodes : List String}
    {eps : List Endpoint} {lo hi : Nat} (h : DescChain cap nodes eps lo hi) :
    ∀ e ∈ eps, ∃ a b, lo ≤ a ∧ EpDesc cap nodes e a b := by
  induction eps generalizing lo with
  | nil => intro e he; exact absurd he (by simp)
  | cons ep rest ih =>
      intro e he
      obtain ⟨mid, hd, hc⟩ := h
      rcases List.mem_cons.mp he with rfl | he'
      · exact ⟨lo, mid, le_refl _, hd⟩
      · obtain ⟨a, b, ha, hdesc⟩ := ih hc e he'
        exact ⟨a, b, le_trans (le_of_lt (EpDesc_lt hd)) ha, hdesc⟩

/-- All GPU indices in a chain are below the capacity. -/
theorem DescChain_gpu_lt {cap : Nat} {nodes : List String}
    {eps : List Endpoint} {lo hi : Nat} (h : DescChain cap nodes eps lo hi) :
    ∀ ep ∈ eps, ∀ g ∈ ep.gpu_indices, g < cap := by
  intro ep hep
  obtain ⟨a, b, _, hdesc⟩ := DescChain_mem h ep hep
  obtain ⟨s, k, hn, hk, hsk, hne, hgcap, _, _⟩ := hdesc
  exact hgcap

/-- What two endpoints appearing in one allocation satisfy: if they share a
node they claim disjoint GPU index sets there and are both single-node
endpoints (multi-node endpoints never share a node with anyone). -/
def SharedNodeDisjoint (e1 e2 : Endpoint) : Prop :=
  ∀ n ∈ e1.nodes, n ∈ e2.nodes →
    (∀ g ∈ e1.gpu_indices, g ∉ e2.gpu_indices) ∧
    e1.nodes.length = 1 ∧ e2.nodes.length = 1

/-- In a duplicate-free node list, equal `getD` lookups have equal
indices. -/
theorem nodup_getD_inj {nodes : List String} (hnd : nodes.Nodup)
    {j1 j2 : Nat} (h1 : j1 < nodes.length) (h2 : j2 < nodes.length)
    (h : nodes.getD j1 "" = nodes.getD j2 "") : j1 = j2 := by
  rw [List.getD_eq_getElem nodes "" h1, List.getD_eq_getElem nodes "" h2] at h
  exact (List.Nodup.getElem_inj_iff hnd).mp h

/-- Endpoints with separated claim windows satisfy `SharedNodeDisjoint`. -/
theorem pair_of_descs {cap : Nat} {nodes : List String}
    {e1 e2 : Endpoint} {lo1 hi1 lo2 hi2 : Nat} (hnd : nodes.Nodup)
    (h1 : EpDesc cap nodes e1 lo1 hi1) (h2 : EpDesc cap nodes e2 lo2 hi2)
    (hsep : hi1 ≤ lo2) : SharedNodeDisjoint e1 e2 := by
  intro n hn1 hn2
  obtain ⟨s1, k1, hn1eq, hk1, hsk1, hne1, hgcap1, hclaim1, hfull1⟩ := h1
  obtain ⟨s2, k2, hn2eq, hk2, hsk2, hne2, hgcap2, hclaim2, hfull2⟩ := h2
  rw [hn1eq, List.mem_map] at hn1
  obtain ⟨j1, hj1mem, hj1eq⟩ := hn1
  rw [List.mem_range'_1] at hj1mem
  rw [hn2eq, List.mem_map] at hn2
  obtain ⟨j2, hj2mem, hj2eq⟩ := hn2
  rw [List.mem_range'_1] at hj2mem
  have hj1len : j1 < nodes.length := by omega
  have hj2len : j2 < nodes.length := by omega
  have hjeq : j1 = j2 :=
    nodup_getD_inj hnd hj1len hj2len (hj1eq.trans hj2eq.symm)
  subst hjeq
  refine ⟨?_, ?_, ?_⟩
  · intro g hg1 hg2
    have c1 := hclaim1 j1 g (by omega) (by omega) hg1
    have c2 := hclaim2 j1 g (by omega) (by omega) hg2
    omega
  · have hk1' : ¬ 2 ≤ k1 := by
      intro h2k
      obtain ⟨g2, hg2⟩ := List.exists_mem_of_ne_nil _ hne2
      have c1 := hfull1 h2k j1 g2 (by omega) (by omega) (hgcap2 g2 hg2)
      have c2 := hclaim2 j1 g2 (by omega) (by omega) hg2
      omega
    rw [hn1eq]
    simp only [List.length_map, List.length_range']
    omega
  · have hk2' : ¬ 2 ≤ k2 := by
      intro h2k
      obtain ⟨g1, hg1⟩ := List.exists_mem_of_ne_nil _ hne1
      have c1 := hclaim1 j1 g1 (by omega) (by omega) hg1
      have c2 := hfull2 h2k j1 g1 (by omega) (by omega) (hgcap1 g1 hg1)
      omega
    rw [hn2eq]
    simp only [List.length_map, List.length_range']
    omega

/-- Any chain of allocated endpoints is pairwise `SharedNodeDisjoint`. -/
theorem DescChain_pairwise {cap : Nat} {nodes : List String}
    {eps : List Endpoint} {lo hi : Nat} (hnd : nodes.Nodup)
    (h : DescChain cap nodes eps lo hi) :
    eps.Pairwise SharedNodeDisjoint := by
  induction eps generalizing lo with
  | nil => exact List.Pairwise.nil
  | cons ep rest ih =>
      obtain ⟨mid, hd, hc⟩ := h
      refine List.Pairwise.cons ?_ (ih hc)
      intro e2 he2
      obtain ⟨a, b, ha, hdesc2⟩ := DescChain_mem hc e2 he2
      exact pair_of_descs hnd hd hdesc2 ha

/-- One allocation step, without assuming a positive GPU need: the cursor
invariant is preserved and the linearised position advances by at least
`need`. -/
theorem allocOne_pos {cap : Nat} {nodes : List String} {mode : String}
    {idx need : Nat} {c c' : Nat × Nat} {ep : Endpoint}
    (hcap : 0 < cap) (hinv : CursorInv cap nodes c)
    (h : allocOne cap nodes mode idx need c = some (ep, c')) :
    CursorInv cap nodes c' ∧
    cursorPos cap c + need ≤ cursorPos cap c' := by
  by_cases hn : 0 < need
  · obtain ⟨h1, h2, _⟩ := allocOne_spec hcap hn hinv h
    exact ⟨h1, h2⟩
  · have hz : need = 0 := by omega
    subst hz
    obtain ⟨hoff, hlen, hptr⟩ := hinv
    simp only [allocOne] at h
    rw [if_pos (by omega)] at h
    split at h
    next hni =>
      simp only [Option.some.injEq, Prod.mk.injEq] at h
      obtain ⟨rfl, rfl⟩ := h
      refine ⟨⟨by omega, hlen, fun hp => hni⟩, ?_⟩
      simp only [cursorPos]
      omega
    next => exact absurd h (by simp)

/-- A role segment, without assuming a positive GPU need: the cursor
invariant is preserved and the linearised position advances by at least
`count * need`. -/
theorem allocRole_pos {cap : Nat} {nodes : List String} {mode : String}
    {need : Nat} (hcap : 0 < cap) :
    ∀ (count idx : Nat) (c : Nat × Nat) (eps : List Endpoint)
      (c' : Nat × Nat),
      CursorInv cap nodes c →
      allocRole cap nodes mode need count idx c = some (eps, c') →
      CursorInv cap nodes c' ∧
      cursorPos cap c + count * need ≤ cursorPos cap c' := by
  intro count
  induction count with
  | zero =>
      intro idx c eps c' hinv h
      simp only [allocRole, Option.some.injEq, Prod.mk.injEq] at h
      obtain ⟨rfl, rfl⟩ := h
      exact ⟨hinv, by omega⟩
  | succ n ih =>
      intro idx c eps c' hinv h
      simp only [allocRole] at h
      cases h1 : allocOne cap nodes mode idx need c with
      | none => rw [h1] at h; exact absurd h (by simp)
      | some pc =>
          obtain ⟨ep, c1⟩ := pc
          rw [h1] at h
          simp only at h
          cases h2 : allocRole cap nodes mode need n (idx + 1) c1 with
          | none => rw [h2] at h; exact absurd h (by simp)
          | some pr =>
              obtain ⟨eps', cf⟩ := pr
              rw [h2] at h
              simp only [Option.some.injEq, Prod.mk.injEq] at h
              obtain ⟨rfl, rfl⟩ := h
              obtain ⟨hinv1, hpos1⟩ := allocOne_pos hcap hinv h1
              obtain ⟨hinv2, hpos2⟩ := ih (idx + 1) c1 eps' cf hinv1 h2
              refine ⟨hinv2, ?_⟩
              have hm : (n + 1) * need = n * need + need := by ring
              omega

/-- A well-formed cursor has consumed at most the whole pool. -/
theorem cursorPos_le {cap : Nat} {nodes : List String} {c : Nat × Nat}
    (hinv : CursorInv cap nodes c) :
    cursorPos cap c ≤ cap * nodes.length := by
  obtain ⟨hoff, hlen, hptr⟩ := hinv
  have hc : cap * nodes.length = nodes.length * cap := Nat.mul_comm _ _
  rcases Nat.eq_zero_or_pos c.2 with h0 | h0
  · have : c.1 * cap ≤ nodes.length * cap :=
      Nat.mul_le_mul_right cap hlen
    simp only [cursorPos, h0]
    omega
  · have hlt := hptr h0
    have : (c.1 + 1) * cap ≤ nodes.length * cap :=
      Nat.mul_le_mul_right cap (by omega)
    have hm : (c.1 + 1) * cap = c.1 * cap + cap := by ring
    simp only [cursorPos]
    omega

/-- Any successful allocation chains all produced endpoints' claim windows
from position 0. -/
theorem allocate_endpoints_chain {np nd na gp gd ga cap : Nat}
    {nodes : List String} {eps : List Endpoint}
    (hcap : 0 < cap)
    (hgp : np ≠ 0 → 0 < gp) (hgd : nd ≠ 0 → 0 < gd) (hga : na ≠ 0 → 0 < ga)
    (h : allocate_endpoints np nd na gp gd ga cap nodes = some eps) :
    ∃ hi, DescChain cap nodes eps 0 hi := by
  simp only [allocate_endpoints] at h
  cases h1 : allocRole cap nodes "prefill" gp np 0 (0, 0) with
  | none => rw [h1] at h; exact absurd h (by simp)
  | some p1 =>
      obtain ⟨pe, c1⟩ := p1
      rw [h1] at h
      simp only at h
      cases h2 : allocRole cap nodes "decode" gd nd 0 c1 with
      | none => rw [h2] at h; exact absurd h (by simp)
      | some p2 =>
          obtain ⟨de, c2⟩ := p2
          rw [h2] at h
          simp only at h
          cases h3 : allocRole cap nodes "agg" ga na 0 c2 with
          | none => rw [h3] at h; exact absurd h (by simp)
          | some p3 =>
              obtain ⟨ae, cf⟩ := p3
              rw [h3] at h
              simp only [Option.some.injEq] at h
              subst h
              have hinv0 : CursorInv cap nodes (0, 0) :=
                ⟨Nat.zero_le _, Nat.zero_le _, fun hp => absurd hp (by omega)⟩
              obtain ⟨hinv1, _, hc1⟩ :=
                allocRole_spec hcap np 0 (0, 0) pe c1 hgp hinv0 h1
              obtain ⟨hinv2, _, hc2⟩ :=
                allocRole_spec hcap nd 0 c1 de c2 hgd hinv1 h2
              obtain ⟨hinv3, _, hc3⟩ :=
                allocRole_spec hcap na 0 c2 ae cf hga hinv2 h3
              refine ⟨cursorPos cap cf, ?_⟩
              have h0 : cursorPos cap (0, 0) = 0 := by simp [cursorPos]
              rw [h0] at hc1
              exact DescChain_append (DescChain_append hc1 hc2) hc3

/-- Nodes claimed by the endpoints of one role. -/
def roleNodes (eps : List Endpoint) (m : String) : List String :=
  (eps.filter (fun e => e.mode == m)).flatMap (fun e => e.nodes)

/-- Claim C1 (amended): for every valid allocation input (duplicate-free
node list, positive per-node capacity, positive GPU need for every requested
role) on which `allocate_endpoints` succeeds, every claimed GPU index is
below the per-node capacity, and any two distinct endpoints — of the same or
different roles — either occupy disjoint node sets or share a node while
claiming disjoint GPU index sets there, in which case both are single-node
endpoints; in particular a multi-node endpoint never shares a node and
always starts at a full node boundary.  (The roles' node sets themselves are
not pairwise disjoint: a later role reuses the partially consumed node when
its endpoint fits there.) -/
theorem C1_allocation_invariants
    (np nd na gp gd ga cap : Nat) (nodes : List String)
    (eps : List Endpoint)
    (hcap : 0 < cap) (hnd : nodes.Nodup)
    (hgp : np ≠ 0 → 0 < gp) (hgd : nd ≠ 0 → 0 < gd) (hga : na ≠ 0 → 0 < ga)
    (h : allocate_endpoints np nd na gp gd ga cap nodes = some eps) :
    (∀ ep ∈ eps, ∀ g ∈ ep.gpu_indices, g < cap) ∧
    eps.Pairwise SharedNodeDisjoint := by
  obtain ⟨hi, hchain⟩ := allocate_endpoints_chain hcap hgp hgd hga h
  exact ⟨DescChain_gpu_lt hchain, DescChain_pairwise hnd hchain⟩

/-- Witness for C1 at a concrete input: 1 prefill (2 GPUs), 1 decode
(4 GPUs), 1 aggregated (1 GPU) on three 4-GPU nodes. -/
theorem C1_witness :
    (∀ ep ∈ [Endpoint.mk "prefill" 0 ["n0"] [0, 1] 2,
             Endpoint.mk "decode" 0 ["n1"] [0, 1, 2, 3] 4,
             Endpoint.mk "agg" 0 ["n2"] [0] 1],
       ∀ g ∈ ep.gpu_indices, g < 4) ∧
    List.Pairwise SharedNodeDisjoint
      [Endpoint.mk "prefill" 0 ["n0"] [0, 1] 2,
       Endpoint.mk "decode" 0 ["n1"] [0, 1, 2, 3] 4,
       Endpoint.mk "agg" 0 ["n2"] [0] 1] :=
  C1_allocation_invariants 1 1 1 2 4 1 4 ["n0", "n1", "n2"]
    [Endpoint.mk "prefill" 0 ["n0"] [0, 1] 2,
     Endpoint.mk "decode" 0 ["n1"] [0, 1, 2, 3] 4,
     Endpoint.mk "agg" 0 ["n2"] [0] 1]
    (by decide) (by decide) (fun _ => by decide) (fun _ => by decide)
    (fun _ => by decide) (by decide)

/-- Counterexample for C1 as stated: with 1 prefill and 1 decode endpoint of
2 GPUs each on a single 4-GPU node, allocation succeeds and both roles are
placed on `node0` — the prefill and decode node sets are not disjoint, and
the decode allocation reuses the node the prefill role left partially
consumed.  (This is the behaviour fixed by
`tests/test_endpoint_allocation.py::test_process_construction`, which
expects both endpoints on `node0`.) -/
theorem C1_counterexample :
    allocate_endpoints 1 1 0 2 2 8 4 ["node0"] =
      some [Endpoint.mk "prefill" 0 ["node0"] [0, 1] 2,
            Endpoint.mk "decode" 0 ["node0"] [2, 3] 2]
    ∧ "node0" ∈ roleNodes
        ((allocate_endpoints 1 1 0 2 2 8 4 ["node0"]).getD []) "prefill"
    ∧ "node0" ∈ roleNodes
        ((allocate_endpoints 1 1 0 2 2 8 4 ["node0"]).getD []) "decode" := by
  refine ⟨by decide, by decide, by decide⟩

/-- Claim C2: whenever the total GPU demand exceeds the pool's total
capacity, `allocate_endpoints` fails (it is a pure function, so the failure
is deterministic for identical inputs). -/
theorem C2_insufficient_gpus
    (np nd na gp gd ga cap : Nat) (nodes : List String)
    (hcap : 0 < cap)
    (hdemand : cap * nodes.length < np * gp + nd * gd + na * ga) :
    allocate_endpoints np nd na gp gd ga cap nodes = none := by
  cases halloc : allocate_endpoints np nd na gp gd ga cap nodes with
  | none => rfl
  | some eps =>
      exfalso
      simp only [allocate_endpoints] at halloc
      cases h1 : allocRole cap nodes "prefill" gp np 0 (0, 0) with
      | none => rw [h1] at halloc; exact absurd halloc (by simp)
      | some p1 =>
          obtain ⟨pe, c1⟩ := p1
          rw [h1] at halloc
          simp only at halloc
          cases h2 : allocRole cap nodes "decode" gd nd 0 c1 with
          | none => rw [h2] at halloc; exact absurd halloc (by simp)
          | some p2 =>
              obtain ⟨de, c2⟩ := p2
              rw [h2] at halloc
              simp only at halloc
              cases h3 : allocRole cap nodes "agg" ga na 0 c2 with
              | none => rw [h3] at halloc; exact absurd halloc (by simp)
              | some p3 =>
                  obtain ⟨ae, cf⟩ := p3
                  have hinv0 : CursorInv cap nodes (0, 0) :=
                    ⟨Nat.zero_le _, Nat.zero_le _,
                     fun hp => absurd hp (by omega)⟩
                  obtain ⟨hinv1, hp1⟩ :=
                    allocRole_pos hcap np 0 (0, 0) pe c1 hinv0 h1
                  obtain ⟨hinv2, hp2⟩ :=
                    allocRole_pos hcap nd 0 c1 de c2 hinv1 h2
                  obtain ⟨hinv3, hp3⟩ :=
                    allocRole_pos hcap na 0 c2 ae cf hinv2 h3
                  have hle := cursorPos_le hinv3
                  have h0 : cursorPos cap (0, 0) = 0 := by simp [cursorPos]
                  omega

/-- Witness for C2 at the concrete input of
`tests/test_endpoint_allocation.py::test_insufficient_gpus`: 32 GPUs
demanded on an 8-GPU pool. -/
theorem C2_witness :
    allocate_endpoints 2 2 0 8 8 8 4 ["node0", "node1"] = none :=
  C2_insufficient_gpus 2 2 0 8 8 8 4 ["node0", "node1"] (by decide)
    (by decide)

-- ===========================================================================
-- Claims C3, C4: the process materializer (srtctl.core.topology, absent
-- from the sources; modelled from the spec and pinned by
-- tests/test_endpoint_allocation.py)
-- ===========================================================================

/-- Modelled from the spec: the `Process` dataclass of the missing module
`srtctl.core.topology` — physical execution unit, one per node spanned by an
Endpoint.  `http_port = 0` is the null-equivalent for non-leaders
(the tests check `child.http_port == 0`). -/
structure Process where
  endpoint_mode : String
  endpoint_index : Nat
  node : String
  gpu_indices : List Nat
  is_leader : Bool
  sys_port : Nat
  http_port : Nat
  bootstrap_port : Option Nat
  kv_events_port : Nat
  cuda_visible_devices : String
deriving DecidableEq

/-- Ascending comma join of GPU indices (the `CUDA_VISIBLE_DEVICES`
string). -/
def joinIndices : List Nat → String
  | [] => ""
  | [g] => toString g
  | g :: rest => toString g ++ "," ++ joinIndices rest

/-- Modelled from the spec: the process of one endpoint on its `i`-th
spanned node — the first node's process is the leader and the only one with
an HTTP port; system and event ports advance per process, the bootstrap
port is shared by the whole endpoint. -/
def procOfIdx (ep : Endpoint) (sys http kv : Nat) (bp : Option Nat)
    (i : Nat) : Process :=
  { endpoint_mode := ep.mode
    endpoint_index := ep.index
    node := ep.nodes.getD i ""
    gpu_indices := ep.gpu_indices
    is_leader := i == 0
    sys_port := sys + i
    http_port := if i == 0 then http else 0
    bootstrap_port := bp
    kv_events_port := kv + i
    cuda_visible_devices := joinIndices ep.gpu_indices }

/-- Modelled from the spec: the process list of one endpoint, one process
per spanned node in order. -/
def procsOfEndpoint (ep : Endpoint) (sys http kv : Nat) (bp : Option Nat) :
    List Process :=
  (List.range' 0 ep.nodes.length).map (procOfIdx ep sys http kv bp)

/-- Modelled from the spec: process groups per endpoint, threading the
job-wide monotonic port counters — system ports from the base port, HTTP
ports from 30000 (one per endpoint, consumed by its leader), bootstrap
ports from 31000 (one per prefill endpoint), event ports from 5550
(one per process); the counter seeds are pinned by
`tests/test_endpoint_allocation.py`. -/
def mkProcsGrouped :
    List Endpoint → Nat → Nat → Nat → Nat → List (List Process)
  | [], _, _, _, _ => []
  | ep :: rest, sys, http, bstrap, kv =>
      procsOfEndpoint ep sys http kv
          (if ep.mode == "prefill" then some bstrap else none) ::
        mkProcsGrouped rest (sys + ep.nodes.length) (http + 1)
          (bstrap + (if ep.mode == "prefill" then 1 else 0))
          (kv + ep.nodes.length)

/-- Modelled from the spec: `endpoints_to_processes` of the missing
`srtctl.core.topology` — one process per node spanned by each endpoint, in
endpoint order. -/
def endpoints_to_processes (eps : List Endpoint) (base_sys_port : Nat) :
    List Process :=
  (mkProcsGrouped eps base_sys_port 30000 31000 5550).flatten

example :
    endpoints_to_processes
      [Endpoint.mk "prefill" 0 ["node0", "node1"] [0, 1, 2, 3] 8] 8081 =
      [Process.mk "prefill" 0 "node0" [0, 1, 2, 3] true 8081 30000
         (some 31000) 5550 "0,1,2,3",
       Process.mk "prefill" 0 "node1" [0, 1, 2, 3] false 8082 0
         (some 31000) 5551 "0,1,2,3"] := by decide

example :
    (endpoints_to_processes
      [Endpoint.mk "prefill" 0 ["node0"] [0, 1] 2,
       Endpoint.mk "prefill" 1 ["node0"] [2, 3] 2,
       Endpoint.mk "decode" 0 ["node1"] [0, 1] 2,
       Endpoint.mk "decode" 1 ["node1"] [2, 3] 2] 8081).map
        (fun p => p.kv_events_port) = [5550, 5551, 5552, 5553] := by decide

/-- Total number of processes: one per spanned node. -/
def totalNodes (eps : List Endpoint) : Nat :=
  (eps.map (fun e => e.nodes.length)).sum

/-- The system ports of a materialized job are exactly the consecutive range
starting at the base counter. -/
theorem mkProcs_sys_ports (eps : List Endpoint) :
    ∀ (sys http b kv : Nat),
      ((mkProcsGrouped eps sys http b kv).flatten.map
        (fun p => p.sys_port)) = List.range' sys (totalNodes eps) := by
  induction eps with
  | nil => intro sys http b kv; simp [mkProcsGrouped, totalNodes]
  | cons ep rest ih =>
      intro sys http b kv
      simp only [mkProcsGrouped, List.flatten_cons, List.map_append, ih]
      have hg : (procsOfEndpoint ep sys http kv
            (if ep.mode == "prefill" then some b else none)).map
            (fun p => p.sys_port) = List.range' sys ep.nodes.length := by
        simp only [procsOfEndpoint, List.map_map]
        have : ((fun p : Process => p.sys_port) ∘
            procOfIdx ep sys http kv
              (if ep.mode == "prefill" then some b else none)) =
            fun i => sys + i := rfl
        rw [this, List.map_add_range']
        simp
      rw [hg]
      have := List.range'_append sys ep.nodes.length (totalNodes rest) 1
      simp only [Nat.one_mul] at this
      rw [this]
      simp only [totalNodes, List.map_cons, List.sum_cons]
      congr 1
      omega

/-- The event-publishing ports of a materialized job are exactly the
consecutive range starting at the base counter. -/
theorem mkProcs_kv_ports (eps : List Endpoint) :
    ∀ (sys http b kv : Nat),
      ((mkProcsGrouped eps sys http b kv).flatten.map
        (fun p => p.kv_events_port)) = List.range' kv (totalNodes eps) := by
  induction eps with
  | nil => intro sys http b kv; simp [mkProcsGrouped, totalNodes]
  | cons ep rest ih =>
      intro sys http b kv
      simp only [mkProcsGrouped, List.flatten_cons, List.map_append, ih]
      have hg : (procsOfEndpoint ep sys http kv
            (if ep.mode == "prefill" then some b else none)).map
            (fun p => p.kv_events_port) =
            List.range' kv ep.nodes.length := by
        simp only [procsOfEndpoint, List.map_map]
        have : ((fun p : Process => p.kv_events_port) ∘
            procOfIdx ep sys http kv
              (if ep.mode == "prefill" then some b else none)) =
            fun i => kv + i := rfl
        rw [this, List.map_add_range']
        simp
      rw [hg]
      have := List.range'_append kv ep.nodes.length (totalNodes rest) 1
      simp only [Nat.one_mul] at this
      rw [this]
      simp only [totalNodes, List.map_cons, List.sum_cons]
      congr 1
      omega

/-- Every leader's HTTP port lies in the window of HTTP counters consumed by
the job. -/
theorem mkProcs_leader_http_bound (eps : List Endpoint) :
    ∀ (sys http b kv : Nat) (p : Process),
      p ∈ (mkProcsGrouped eps sys http b kv).flatten →
      p.is_leader = true →
      http ≤ p.http_port ∧ p.http_port < http + eps.length := by
  induction eps with
  | nil => intro sys http b kv p hp _; simp [mkProcsGrouped] at hp
  | cons ep rest ih =>
      intro sys http b kv p hp hl
      simp only [mkProcsGrouped, List.flatten_cons, List.mem_append] at hp
      rcases hp with hp | hp
      · simp only [procsOfEndpoint, List.mem_map] at hp
        obtain ⟨i, hi, rfl⟩ := hp
        simp [procOfIdx] at hl
        subst hl
        simp [procOfIdx]
      · obtain ⟨h1, h2⟩ := ih (sys + ep.nodes.length) (http + 1)
          (b + (if ep.mode == "prefill" then 1 else 0))
          (kv + ep.nodes.length) p hp hl
        refine ⟨by omega, ?_⟩
        simp only [List.length_cons]
        omega

/-- The leader-selecting filter over one endpoint's index range keeps at
most the index 0. -/
theorem range'_filter_zero (k : Nat) :
    (List.range' 0 k).filter (fun i => i == 0) =
      if 0 < k then [0] else [] := by
  cases k with
  | zero => simp
  | succ m =>
      have hsucc := List.range'_succ 0 m 1
      rw [hsucc]
      simp only [List.filter_cons]
      have h0 : ((0 : Nat) == 0) = true := by decide
      rw [if_pos (by simp)]
      have hrest : (List.range' 1 m).filter (fun i => i == 0) = [] := by
        rw [List.filter_eq_nil_iff]
        intro a ha
        rw [List.mem_range'_1] at ha
        simp only [beq_iff_eq]
        omega
      rw [hrest]
      simp

/-- Leaders of a materialized job have pairwise distinct HTTP ports. -/
theorem mkProcs_leader_http_nodup (eps : List Endpoint) :
    ∀ (sys http b kv : Nat),
      (((mkProcsGrouped eps sys http b kv).flatten.filter
        (fun p => p.is_leader)).map (fun p => p.http_port)).Nodup := by
  induction eps with
  | nil => intro sys http b kv; simp [mkProcsGrouped]
  | cons ep rest ih =>
      intro sys http b kv
      simp only [mkProcsGrouped, List.flatten_cons, List.filter_append,
        List.map_append]
      rw [List.nodup_append]
      have hhead : ((procsOfEndpoint ep sys http kv
          (if ep.mode == "prefill" then some b else none)).filter
            (fun p => p.is_leader)).map (fun p => p.http_port) =
          if 0 < ep.nodes.length then [http] else [] := by
        simp only [procsOfEndpoint, List.filter_map]
        rw [show ((fun p : Process => p.is_leader) ∘
            procOfIdx ep sys http kv
              (if ep.mode == "prefill" then some b else none)) =
            (fun i => i == 0) from rfl]
        rw [range'_filter_zero]
        rcases Nat.eq_zero_or_pos ep.nodes.length with h0 | h0
        · simp [h0]
        · rw [if_pos h0, if_pos h0]
          simp [procOfIdx]
      rw [hhead]
      refine ⟨?_, ih _ _ _ _, ?_⟩
      · split <;> simp
      · intro x hx hx2
        have hxh : x = http := by
          rcases Nat.eq_zero_or_pos ep.nodes.length with h0 | h0
          · rw [if_neg (by omega)] at hx
            simp at hx
          · rw [if_pos h0] at hx
            simpa using hx
        rw [List.mem_map] at hx2
        obtain ⟨p, hp, hpx⟩ := hx2
        rw [List.mem_filter] at hp
        have := mkProcs_leader_http_bound rest _ _ _ _ p hp.1 hp.2
        omega

/-- Claim C3: for every endpoint list and every base port, the materialized
processes have pairwise distinct system/control ports and pairwise distinct
event-publishing (kv_events) ports across the whole job — including
processes of different endpoints sharing a node — and any two leader
processes (in particular two on the same node) have distinct HTTP ports. -/
theorem C3_globally_unique_ports (eps : List Endpoint)
    (base_sys_port : Nat) :
    ((endpoints_to_processes eps base_sys_port).map
      (fun p => p.sys_port)).Nodup ∧
    ((endpoints_to_processes eps base_sys_port).map
      (fun p => p.kv_events_port)).Nodup ∧
    (((endpoints_to_processes eps base_sys_port).filter
      (fun p => p.is_leader)).map (fun p => p.http_port)).Nodup := by
  refine ⟨?_, ?_, ?_⟩
  · rw [endpoints_to_processes, mkProcs_sys_ports]
    exact List.nodup_range' _ _
  · rw [endpoints_to_processes, mkProcs_kv_ports]
    exact List.nodup_range' _ _
  · exact mkProcs_leader_http_nodup eps _ _ _ _

/-- Structure of one endpoint's process group: one process per node, exactly
one leader (the first node's process), null HTTP ports for non-leaders, and
one shared bootstrap value. -/
theorem procsOfEndpoint_spec (ep : Endpoint) (sys http kv : Nat)
    (bp : Option Nat) :
    (procsOfEndpoint ep sys http kv bp).length = ep.nodes.length ∧
    (ep.nodes ≠ [] →
      ((procsOfEndpoint ep sys http kv bp).filter
        (fun p => p.is_leader)).length = 1) ∧
    (∀ p ∈ procsOfEndpoint ep sys http kv bp,
      p.is_leader = true → p.node = ep.nodes.getD 0 "") ∧
    (∀ p ∈ procsOfEndpoint ep sys http kv bp,
      p.is_leader = false → p.http_port = 0) ∧
    (∀ p ∈ procsOfEndpoint ep sys http kv bp, p.bootstrap_port = bp) := by
  refine ⟨?_, ?_, ?_, ?_, ?_⟩
  · simp [procsOfEndpoint]
  · intro hne
    simp only [procsOfEndpoint, List.filter_map]
    rw [show ((fun p : Process => p.is_leader) ∘
        procOfIdx ep sys http kv bp) = (fun i => i == 0) from rfl]
    rw [range'_filter_zero,
      if_pos (by cases hn : ep.nodes <;> simp_all)]
    simp
  · intro p hp hl
    simp only [procsOfEndpoint, List.mem_map] at hp
    obtain ⟨i, hi, rfl⟩ := hp
    simp [procOfIdx] at hl
    subst hl
    rfl
  · intro p hp hl
    simp only [procsOfEndpoint, List.mem_map] at hp
    obtain ⟨i, hi, rfl⟩ := hp
    simp [procOfIdx] at hl
    simp [procOfIdx, hl]
  · intro p hp
    simp only [procsOfEndpoint, List.mem_map] at hp
    obtain ⟨i, hi, rfl⟩ := hp
    rfl

/-- The per-endpoint group structure of `mkProcsGrouped`, for any counter
seeds. -/
theorem mkProcs_groups_spec (eps : List Endpoint) :
    ∀ (sys http b kv : Nat),
      List.Forall₂
        (fun (ep : Endpoint) (g : List Process) =>
          g.length = ep.nodes.length ∧
          (ep.nodes ≠ [] →
            (g.filter (fun p => p.is_leader)).length = 1) ∧
          (∀ p ∈ g, p.is_leader = true → p.node = ep.nodes.getD 0 "") ∧
          (∀ p ∈ g, p.is_leader = false → p.http_port = 0) ∧
          (∀ p ∈ g, ∀ q ∈ g, p.bootstrap_port = q.bootstrap_port) ∧
          (ep.mode = "prefill" →
            ∀ p ∈ g, p.bootstrap_port.isSome = true) ∧
          (ep.mode ≠ "prefill" → ∀ p ∈ g, p.bootstrap_port = none))
        eps (mkProcsGrouped eps sys http b kv) := by
  induction eps with
  | nil => intro sys http b kv; exact List.Forall₂.nil
  | cons ep rest ih =>
      intro sys http b kv
      refine List.Forall₂.cons ?_ (ih _ _ _ _)
      obtain ⟨hlen, hone, hnode, hhttp, hbp⟩ :=
        procsOfEndpoint_spec ep sys http kv
          (if ep.mode == "prefill" then some b else none)
      refine ⟨hlen, hone, hnode, hhttp, ?_, ?_, ?_⟩
      · intro p hp q hq
        rw [hbp p hp, hbp q hq]
      · intro hm p hp
        rw [hbp p hp, if_pos (by simp [hm])]
        rfl
      · intro hm p hp
        rw [hbp p hp, if_neg (by simpa using hm)]

/-- Claim C4: for every endpoint, `endpoints_to_processes` produces one
process per spanned node with exactly one leader — the process on the
endpoint's first node; only the leader has an HTTP port (non-leaders get the
null-equivalent 0); all processes of a prefill endpoint share one bootstrap
port value, present for prefill and absent (`none`) for decode and
aggregated endpoints. -/
theorem C4_leader_and_bootstrap (eps : List Endpoint)
    (base_sys_port : Nat) :
    endpoints_to_processes eps base_sys_port =
      (mkProcsGrouped eps base_sys_port 30000 31000 5550).flatten ∧
    List.Forall₂
      (fun (ep : Endpoint) (g : List Process) =>
        g.length = ep.nodes.length ∧
        (ep.nodes ≠ [] →
          (g.filter (fun p => p.is_leader)).length = 1) ∧
        (∀ p ∈ g, p.is_leader = true → p.node = ep.nodes.getD 0 "") ∧
        (∀ p ∈ g, p.is_leader = false → p.http_port = 0) ∧
        (∀ p ∈ g, ∀ q ∈ g, p.bootstrap_port = q.bootstrap_port) ∧
        (ep.mode = "prefill" →
          ∀ p ∈ g, p.bootstrap_port.isSome = true) ∧
        (ep.mode ≠ "prefill" → ∀ p ∈ g, p.bootstrap_port = none))
      eps (mkProcsGrouped eps base_sys_port 30000 31000 5550) :=
  ⟨rfl, mkProcs_groups_spec eps base_sys_port 30000 31000 5550⟩

/-- Witness for C4 at the concrete multi-node prefill endpoint of
`tests/test_endpoint_allocation.py::test_multi_node_process_construction`. -/
theorem C4_witness :
    List.Forall₂
      (fun (ep : Endpoint) (g : List Process) =>
        g.length = ep.nodes.length ∧
        (ep.nodes ≠ [] →
          (g.filter (fun p => p.is_leader)).length = 1) ∧
        (∀ p ∈ g, p.is_leader = true → p.node = ep.nodes.getD 0 "") ∧
        (∀ p ∈ g, p.is_leader = false → p.http_port = 0) ∧
        (∀ p ∈ g, ∀ q ∈ g, p.bootstrap_port = q.bootstrap_port) ∧
        (ep.mode = "prefill" →
          ∀ p ∈ g, p.bootstrap_port.isSome = true) ∧
        (ep.mode ≠ "prefill" → ∀ p ∈ g, p.bootstrap_port = none))
      [Endpoint.mk "prefill" 0 ["node0", "node1"] [0, 1, 2, 3] 8,
       Endpoint.mk "decode" 0 ["node2"] [0, 1] 2]
      (mkProcsGrouped
        [Endpoint.mk "prefill" 0 ["node0", "node1"] [0, 1, 2, 3] 8,
         Endpoint.mk "decode" 0 ["node2"] [0, 1] 2] 8081 30000 31000 5550) :=
  (C4_leader_and_bootstrap
    [Endpoint.mk "prefill" 0 ["node0", "node1"] [0, 1, 2, 3] 8,
     Endpoint.mk "decode" 0 ["node2"] [0, 1] 2] 8081).2
